import Mathlib

/-!
Verification of the acp-multiplex multiplexing proxy.

The development shallowly embeds the Go sources: `message.go` (JSON-RPC
envelope parsing, classification, id rewriting), `cache.go` (the replay
cache with streaming-chunk coalescing), and the proxy core
(id allocation, response routing, reverse-call arbitration, agent-death
drain, synthesized turn-complete).

JSON lines on the wire are modelled by the inductive `Json` value type;
a stored `json.RawMessage` is modelled by the `Json` value it denotes,
and "byte-for-byte identical" raw ids are modelled as equality of the
denoted values (Go re-marshals raw messages verbatim up to member order,
which the spec declares insignificant).  Where Go decodes a line into a
typed struct (`json.Unmarshal`), the embedding mirrors Go's semantics:
absent and null members leave the zero value, a type mismatch fails the
whole decode, and decoding JSON null into a settable pointer field
(such as `ID *json.RawMessage`) stores the nil pointer.
-/

namespace AcpMultiplex

/-- A JSON value, covering the grammar the proxy manipulates. -/
inductive Json where
  | null
  | bool (b : Bool)
  | num (n : Int)
  | str (s : String)
  | arr (elems : List Json)
  | obj (members : List (String × Json))
deriving Repr, Inhabited

mutual

/-- Serialization of a `Json` value, used to model Go's `string(*env.ID)`
raw-byte keying of the pending-reverse table. -/
def Json.encode : Json → String
  | .null => "null"
  | .bool true => "true"
  | .bool false => "false"
  | .num n => toString n
  | .str s => "\x22" ++ s ++ "\x22"
  | .arr es => "[" ++ Json.encodeList es ++ "]"
  | .obj ms => "\x7b" ++ Json.encodeMembers ms ++ "\x7d"

/-- Comma-separated encoding of array elements. -/
def Json.encodeList : List Json → String
  | [] => ""
  | [j] => j.encode
  | j :: rest => j.encode ++ "," ++ Json.encodeList rest

/-- Comma-separated encoding of object members. -/
def Json.encodeMembers : List (String × Json) → String
  | [] => ""
  | [(k, v)] => "\x22" ++ k ++ "\x22:" ++ v.encode
  | (k, v) :: rest => "\x22" ++ k ++ "\x22:" ++ v.encode ++ "," ++ Json.encodeMembers rest

end

/-- First member of an object with the given key; `none` on non-objects
and missing keys (Go leaves the corresponding struct field at its zero
value in that case). -/
def Json.lookupMember : Json → String → Option Json
  | .obj ms, k => ms.lookup k
  | _, _ => none

/-- Decode a member into a Go `string` struct field: absent or null
leaves the zero value `""`, a string is taken verbatim, and any other
value is a type error failing the whole `json.Unmarshal`. -/
def strField (o : Json) (k : String) : Option String :=
  match o.lookupMember k with
  | none => some ""
  | some .null => some ""
  | some (.str s) => some s
  | some _ => none

/-- Decode a member into a nested Go struct field: absent or null leaves
the zero struct (modelled as an empty object), an object recurses, and
any other value is a type error. -/
def objField (o : Json) (k : String) : Option Json :=
  match o.lookupMember k with
  | none => some (Json.obj [])
  | some .null => some (Json.obj [])
  | some (.obj ms) => some (Json.obj ms)
  | some _ => none

/-- Decode a member into a Go slice field (`[]json.RawMessage`): absent
or null leaves the nil slice, an array yields its elements, anything
else is a type error. -/
def arrField (o : Json) (k : String) : Option (List Json) :=
  match o.lookupMember k with
  | none => some []
  | some .null => some []
  | some (.arr es) => some es
  | some _ => none

/-- Replace the first member with the given key, appending the member if
the key is absent.  This models writing into Go's
`map[string]json.RawMessage` before re-marshalling; member order is an
abstraction the spec declares insignificant. -/
def setMember : List (String × Json) → String → Json → List (String × Json)
  | [], k, v => [(k, v)]
  | (k0, v0) :: rest, k, v =>
      if k0 = k then (k0, v) :: rest else (k0, v0) :: setMember rest k v

/-! ## message.go: envelope parsing and classification -/

/-- `MessageKind` classifies a JSON-RPC 2.0 message (message.go). -/
inductive MessageKind where
  | request
  | notification
  | response
  | invalid
deriving Repr, DecidableEq

/-- The JSON-RPC 2.0 envelope (message.go).  `id?` models the Go field
`ID *json.RawMessage`; `params?`, `result?` and `error?` model non-pointer
`json.RawMessage` fields, `none` meaning the member was absent. -/
structure Envelope where
  jsonrpc : String := ""
  id? : Option Json := none
  method : String := ""
  params? : Option Json := none
  result? : Option Json := none
  error? : Option Json := none
deriving Repr, Inhabited

/-- The id field of a decoded envelope.  Go's decoder sets a settable
pointer struct field to nil when the JSON value is null (the
`decodingNull` rule in encoding/json), so an `id` member holding JSON
null leaves `ID == nil`, indistinguishable from an absent member. -/
def idField (o : Json) : Option Json :=
  match o.lookupMember "id" with
  | none => none
  | some .null => none
  | some v => some v

/-- A `json.RawMessage` (non-pointer) field: absent stays nil, any
present value — including null — is retained. -/
def rawField (o : Json) (k : String) : Option Json :=
  o.lookupMember k

/-- `parseEnvelope` (message.go): `json.Unmarshal` of a line into
`Envelope`.  A JSON null input leaves the zero struct without error;
a non-object, non-null input is a decode error. -/
def parseEnvelope : Json → Option Envelope
  | .null => some {}
  | .obj ms =>
      match strField (.obj ms) "jsonrpc", strField (.obj ms) "method" with
      | some jr, some m =>
          some { jsonrpc := jr, id? := idField (.obj ms), method := m,
                 params? := rawField (.obj ms) "params",
                 result? := rawField (.obj ms) "result",
                 error? := rawField (.obj ms) "error" }
      | _, _ => none
  | _ => none

/-- `classify` (message.go). -/
def classify (env : Envelope) : MessageKind :=
  let hasMethod := env.method ≠ ""
  let hasID := env.id?.isSome
  if hasMethod ∧ hasID then .request
  else if hasMethod ∧ ¬hasID then .notification
  else if ¬hasMethod ∧ hasID then .response
  else .invalid

/-- `rewriteID` (message.go): decode the line as a raw member map and
replace the `id` member by the integer `newID`.  Only an object decodes
into a non-nil map. -/
def rewriteID (line : Json) (newID : Int) : Option Json :=
  match line with
  | .obj ms => some (.obj (setMember ms "id" (.num newID)))
  | _ => none

/-- `restoreID` (proxy): replace the `id` member by the original raw id
value. -/
def restoreID (line : Json) (origID : Json) : Option Json :=
  match line with
  | .obj ms => some (.obj (setMember ms "id" origID))
  | _ => none

/-! ## cache.go: the replay cache with chunk coalescing -/

/-- The replay cache (cache.go).  `chunkType`, `chunkText` and
`chunkSessionID` form the accumulator for the current run of streaming
chunks (`chunkSessionID` models `chunkMeta.SessionID`).

The `meta` and `pendingPermission` slots are Modelled from the spec: the
revision of cache.go defining `SetMeta`, `SetPendingPermission` and the
replay of these two slots is absent from the sources (only its tests —
`TestBufferNameReplay`, `TestMetadataReplay`,
`TestPermissionReplayedToLateJoiner`, `TestPermissionReplayAfterTurnComplete`
in frontend.go — call them); per spec §3 the cache holds an optional
`meta` notification and the latest unresolved permission request. -/
structure Cache where
  meta : Option Json := none
  initResp : Option Json := none
  newResp : Option Json := none
  updates : List Json := []
  chunkType : String := ""
  chunkText : String := ""
  chunkSessionID : String := ""
  pendingPermission : Option Json := none
deriving Repr, Inhabited

/-- `NewCache` (cache.go). -/
def NewCache : Cache := {}

/-- `Cache.SetInitResponse` (cache.go). -/
def Cache.SetInitResponse (c : Cache) (line : Json) : Cache :=
  { c with initResp := some line }

/-- `Cache.SetNewResponse` (cache.go). -/
def Cache.SetNewResponse (c : Cache) (line : Json) : Cache :=
  { c with newResp := some line }

/-- `Cache.SetMeta`.  Modelled from the spec: the defining revision of
cache.go is absent from the sources; spec §4.3 lists `setMeta(line)`
storing the meta notification slot. -/
def Cache.SetMeta (c : Cache) (line : Json) : Cache :=
  { c with meta := some line }

/-- `Cache.SetPendingPermission`.  Modelled from the spec: the defining
revision of cache.go is absent from the sources; spec §4.3 and §4.4.5
store the latest unresolved `session/request_permission` line. -/
def Cache.SetPendingPermission (c : Cache) (line : Json) : Cache :=
  { c with pendingPermission := some line }

/-- `Cache.ClearPendingPermission`.  Modelled from the spec (§4.3,
§4.4.5): cleared when any frontend answers the permission request. -/
def Cache.ClearPendingPermission (c : Cache) : Cache :=
  { c with pendingPermission := none }

/-- The checked part of `parseUpdateType` (cache.go): `json.Unmarshal`
of the line into the nested struct
`{Params {SessionID; Update {SessionUpdate; Content {Text}}}}`.
`none` is a decode error. -/
def parseUpdateTypeChecked (line : Json) : Option (String × String × String) := do
  let params ← objField line "params"
  let sid ← strField params "sessionId"
  let update ← objField params "update"
  let kind ← strField update "sessionUpdate"
  let content ← objField update "content"
  let text ← strField content "text"
  pure (kind, text, sid)

/-- `parseUpdateType` (cache.go): on a decode error the function returns
three empty strings. -/
def parseUpdateType (line : Json) : String × String × String :=
  (parseUpdateTypeChecked line).getD ("", "", "")

/-- The single coalesced notification emitted by `Cache.flushChunks`
(cache.go), with members in Go's sorted marshal order. -/
def coalescedNotif (kind text sessionID : String) : Json :=
  .obj [("jsonrpc", .str "2.0"),
        ("method", .str "session/update"),
        ("params", .obj
          [("sessionId", .str sessionID),
           ("update", .obj
             [("content", .obj [("text", .str text), ("type", .str "text")]),
              ("sessionUpdate", .str kind)])])]

/-- `Cache.flushChunks` (cache.go): coalesce the accumulated run into a
single notification appended to `updates`; a no-op on an empty
accumulator.  Only `chunkType` and `chunkText` are reset; `chunkMeta`
is left as is, exactly as in the source. -/
def Cache.flushChunks (c : Cache) : Cache :=
  if c.chunkType = "" then c
  else
    { c with
      updates := c.updates ++ [coalescedNotif c.chunkType c.chunkText c.chunkSessionID],
      chunkType := "",
      chunkText := "" }

/-- `Cache.AddUpdate` (cache.go). -/
def Cache.AddUpdate (c : Cache) (line : Json) : Cache :=
  let parsed := parseUpdateType line
  let kind := parsed.1
  let text := parsed.2.1
  let sessionID := parsed.2.2
  if kind = "agent_message_chunk" ∨ kind = "agent_thought_chunk" then
    if c.chunkType = kind then
      { c with chunkText := c.chunkText ++ text }
    else
      let c1 := c.flushChunks
      { c1 with chunkType := kind, chunkText := text, chunkSessionID := sessionID }
  else
    let c1 := c.flushChunks
    { c1 with updates := c1.updates ++ [line] }

/-- `Cache.Replay`: flush the in-progress chunk run, snapshot the cache
under the lock, and send the snapshot to the joining frontend.  The
`initResp`, `newResp` and `updates` sends are from cache.go; the leading
`meta` send and the trailing `pendingPermission` send are Modelled from
the spec (§4.3, I7): the revision of cache.go emitting them is absent
from the sources, and the tests in frontend.go check that `meta` comes
first and the pending permission comes last.  Returns the mutated cache
and the lines sent, in order. -/
def Cache.Replay (c : Cache) : Cache × List Json :=
  let c1 := c.flushChunks
  let sends :=
    (match c1.meta with
     | some m => [m]
     | none => []) ++
    (match c1.initResp with
     | some r => [r]
     | none => []) ++
    (match c1.newResp with
     | some r => [r]
     | none => []) ++
    c1.updates ++
    (match c1.pendingPermission with
     | some p => [p]
     | none => [])
  (c1, sends)

/-! ## proxy core: state, routing, synthesis, agent-death drain -/

/-- `PendingRequest` (proxy): a request forwarded to the agent under a
proxy-allocated id.  `originalID` holds the caller's raw id value
(`none` models the nil `json.RawMessage` left when the envelope had no
id). -/
structure PendingRequest where
  originalID : Option Json := none
  frontend : Nat := 0
  method : String := ""
  params? : Option Json := none
deriving Repr, Inhabited

/-- A connected frontend as the proxy sees it: its stable id and the
`primary` flag. -/
structure FrontendInfo where
  fid : Nat
  primary : Bool
deriving Repr, Inhabited

/-- The multiplexer state (`Proxy` in the source): the atomic proxy-id
counter, the pending-request table (`sync.Map` keyed by proxy id), the
pending-reverse table (`sync.Map` keyed by the raw id bytes of the
agent request, modelled by the encoded id), the agent-dead flag, the
replay cache, and the membership list.  `nextID` idealizes the wrapping
`atomic.Int64` counter as an unbounded integer, adequate for the
per-request statements; the exact wrapping semantics of one allocation
is `allocateProxyID`, and the two agree while the counter stays below
2^63 - 1. -/
structure ProxyState where
  nextID : Int := 1
  pending : List (Int × PendingRequest) := []
  pendingReverse : List String := []
  agentDead : Bool := false
  cache : Cache := {}
  frontends : List FrontendInfo := []
deriving Repr, Inhabited

/-- `NewProxy`: the counter starts at 1 (`p.nextID.Store(1)`), tables
empty, agent alive. -/
def NewProxy (frontends : List FrontendInfo) : ProxyState :=
  { frontends := frontends }

/-- `sync.Map.Load` on the pending table. -/
def lookupPending (pending : List (Int × PendingRequest)) (pid : Int) : Option PendingRequest :=
  (pending.find? (fun e => e.1 = pid)).map (·.2)

/-- `sync.Map.Delete` (the delete half of `LoadAndDelete`) on the
pending table. -/
def deletePending (pending : List (Int × PendingRequest)) (pid : Int) : List (Int × PendingRequest) :=
  pending.filter (fun e => e.1 ≠ pid)

/-- `sync.Map.Store` on the pending-reverse table (keys are unique in a
map, so storing an existing key is dropped). -/
def storeReverse (keys : List String) (k : String) : List String :=
  if k ∈ keys then keys else k :: keys

/-- `sync.Map.Delete` on the pending-reverse table. -/
def deleteReverse (keys : List String) (k : String) : List String :=
  keys.filter (fun k0 => k0 ≠ k)

/-- `json.Unmarshal(*env.ID, &proxyID)` into an `int64`: succeeds
exactly on integer JSON numbers. -/
def numericID : Json → Option Int
  | .num n => some n
  | _ => none

/-- The id of the primary frontend: the first member of the list with
the `primary` flag (`sendToPrimary` scans in order). -/
def primaryID (st : ProxyState) : Option Nat :=
  (st.frontends.find? (·.primary)).map (·.fid)

/-- Recipients of `broadcastExcept(line, except)`: every connected
frontend other than the excluded one. -/
def broadcastRecipients (st : ProxyState) (except : Option Nat) : List Nat :=
  (st.frontends.filter (fun f => some f.fid ≠ except)).map (·.fid)

/-- The error response marshalled in the agent-death drain and in the
dead-agent request path: code -32603, message "Agent process exited",
id the entry's original raw id (a nil raw id marshals as null); members
in Go's sorted marshal order. -/
def agentExitedError (origID : Option Json) : Json :=
  .obj [("error", .obj [("code", .num (-32603)), ("message", .str "Agent process exited")]),
        ("id", origID.getD .null),
        ("jsonrpc", .str "2.0")]

/-- Decode of a `session/prompt` response inside
`synthesizeTurnComplete`: `result.stopReason` and `result.sessionId`. -/
def turnCompleteDecode (responseLine : Json) : Option (String × String) := do
  match responseLine with
  | .obj _ =>
      let result ← objField responseLine "result"
      let stop ← strField result "stopReason"
      let sid ← strField result "sessionId"
      pure (stop, sid)
  | .null => pure ("", "")
  | _ => none

/-- The synthetic `turn_complete` notification, members in Go's sorted
marshal order. -/
def turnCompleteNotif (sessionID stopReason : String) : Json :=
  .obj [("jsonrpc", .str "2.0"),
        ("method", .str "session/update"),
        ("params", .obj
          [("sessionId", .str sessionID),
           ("update", .obj
             [("sessionUpdate", .str "turn_complete"),
              ("stopReason", .str stopReason)])])]

/-- `synthesizeTurnComplete` (proxy): returns the notification to cache
and broadcast, or `none` when the response does not decode or carries no
(or an empty) `result.stopReason` — in that case the function returns
before building anything. -/
def synthesizeTurnComplete (responseLine : Json) : Option Json :=
  match turnCompleteDecode responseLine with
  | none => none
  | some (stop, sid) => if stop = "" then none else some (turnCompleteNotif sid stop)

/-- The synthetic `current_mode_update` notification, members in Go's
sorted marshal order. -/
def modeChangeNotif (sessionID modeID : String) : Json :=
  .obj [("jsonrpc", .str "2.0"),
        ("method", .str "session/update"),
        ("params", .obj
          [("sessionId", .str sessionID),
           ("update", .obj
             [("currentModeId", .str modeID),
              ("sessionUpdate", .str "current_mode_update")])])]

/-- `synthesizeModeChange` (proxy): decodes `sessionId` and `modeId`
from the stored request params; a nil or undecodable params returns
nothing. -/
def synthesizeModeChange (pr : PendingRequest) : Option Json :=
  match pr.params? with
  | none => none
  | some p =>
      match p with
      | .obj _ => do
          let sid ← strField p "sessionId"
          let mid ← strField p "modeId"
          pure (modeChangeNotif sid mid)
      | .null => some (modeChangeNotif "" "")
      | _ => none

/-- The outcome of routing one agent response
(`routeResponseToFrontend`): the new state, the direct sends
`(frontend id, line)` (the restored response to the sender, or the
verbatim fallback to the primary), and the `broadcastExcept` calls
`(line, excluded frontend)` issued by synthesis. -/
structure RouteResult where
  state : ProxyState
  sends : List (Nat × Json)
  broadcasts : List (Json × Option Nat)
deriving Repr, Inhabited

/-- `routeResponseToFrontend` (proxy): drop id-less lines; forward
non-numeric-id responses verbatim to the primary; look up and delete the
pending entry (drop unknown ids); cache `initialize` / `session/new`
responses with the id normalized to 0; synthesize `turn_complete` for
`session/prompt` and `current_mode_update` for `session/set_mode`,
adding each to the cache and broadcasting to every frontend except the
sender; finally restore the original raw id and send to the sender. -/
def routeResponseToFrontend (st : ProxyState) (env : Envelope) (line : Json) : RouteResult :=
  match env.id? with
  | none => ⟨st, [], []⟩
  | some idJ =>
      match numericID idJ with
      | none =>
          match primaryID st with
          | some p => ⟨st, [(p, line)], []⟩
          | none => ⟨st, [], []⟩
      | some proxyID =>
          match lookupPending st.pending proxyID with
          | none => ⟨st, [], []⟩
          | some pr =>
              let st1 := { st with pending := deletePending st.pending proxyID }
              let st2 :=
                if pr.method = "initialize" then
                  match rewriteID line 0 with
                  | some l0 => { st1 with cache := st1.cache.SetInitResponse l0 }
                  | none => st1
                else if pr.method = "session/new" then
                  match rewriteID line 0 with
                  | some l0 => { st1 with cache := st1.cache.SetNewResponse l0 }
                  | none => st1
                else st1
              let promptStep :=
                if pr.method = "session/prompt" then
                  match synthesizeTurnComplete line with
                  | some notif =>
                      ({ st2 with cache := st2.cache.AddUpdate notif },
                       [(notif, some pr.frontend)])
                  | none => (st2, [])
                else (st2, [])
              let st3 := promptStep.1
              let modeStep :=
                if pr.method = "session/set_mode" then
                  match synthesizeModeChange pr with
                  | some notif =>
                      ({ st3 with cache := st3.cache.AddUpdate notif },
                       [(notif, some pr.frontend)])
                  | none => (st3, [])
                else (st3, [])
              let st4 := modeStep.1
              let bc := promptStep.2 ++ modeStep.2
              match restoreID line (pr.originalID.getD .null) with
              | none => ⟨st4, [], bc⟩
              | some restored => ⟨st4, [(pr.frontend, restored)], bc⟩

/-- Decode of `session/prompt` params inside `synthesizeUserMessage`:
`sessionId` and the list of prompt content blocks.  A nil raw params
(`json.Unmarshal(nil, ...)`) is a decode error. -/
def promptDecode (params? : Option Json) : Option (String × List Json) :=
  match params? with
  | none => none
  | some p =>
      match p with
      | .obj _ => do
          let sid ← strField p "sessionId"
          let blocks ← arrField p "prompt"
          pure (sid, blocks)
      | .null => some ("", [])
      | _ => none

/-- One synthetic `user_message_chunk` notification (one per prompt
block), members in Go's sorted marshal order. -/
def userMessageNotif (sessionID : String) (block : Json) : Json :=
  .obj [("jsonrpc", .str "2.0"),
        ("method", .str "session/update"),
        ("params", .obj
          [("sessionId", .str sessionID),
           ("update", .obj
             [("content", block),
              ("sessionUpdate", .str "user_message_chunk")])])]

/-- `synthesizeUserMessage` (proxy): for each prompt block, add the
synthetic notification to the cache and broadcast it to every frontend
except the sender.  The function writes only the cache, so it is stated
on the cache; the broadcasts are returned. -/
def synthesizeUserMessage (cache : Cache) (env : Envelope) (sender : Nat) :
    Cache × List (Json × Option Nat) :=
  match promptDecode env.params? with
  | none => (cache, [])
  | some (sid, blocks) =>
      blocks.foldl
        (fun acc block =>
          let notif := userMessageNotif sid block
          (acc.1.AddUpdate notif, acc.2 ++ [(notif, some sender)]))
        (cache, [])

/-- The outcome of handling one frontend request
(`handleFrontendRequest`): the new state, the lines written to the
agent, the direct sends to frontends (the synthetic error response when
the agent is dead), and the `broadcastExcept` calls from user-message
synthesis. -/
structure RequestResult where
  state : ProxyState
  toAgent : List Json
  sends : List (Nat × Json)
  broadcasts : List (Json × Option Nat)
deriving Repr, Inhabited

/-- `handleFrontendRequest` (proxy): allocate
`proxyID = nextID.Add(1) - 1` (the counter's previous value), store the
pending entry with a copy of the caller's raw id, rewrite the line's id
to the proxy id (an unrewritable line is logged and dropped, the entry
staying in the table exactly as in the source), synthesize user-message
notifications for `session/prompt`, and write to the agent; when the
agent is dead the entry is deleted again and the caller receives the
"Agent process exited" error response carrying its original id. -/
def handleFrontendRequest (st : ProxyState) (f : Nat) (env : Envelope) (line : Json) :
    RequestResult :=
  let proxyID := st.nextID
  let origID := env.id?
  let pr : PendingRequest :=
    { originalID := origID, frontend := f, method := env.method, params? := env.params? }
  let st1 := { st with nextID := st.nextID + 1, pending := (proxyID, pr) :: st.pending }
  match rewriteID line proxyID with
  | none => ⟨st1, [], [], []⟩
  | some rewritten =>
      let userStep :=
        if env.method = "session/prompt" then synthesizeUserMessage st1.cache env f
        else (st1.cache, [])
      let st2 := { st1 with cache := userStep.1 }
      if st2.agentDead then
        ⟨{ st2 with pending := deletePending st2.pending proxyID },
         [], [(f, agentExitedError origID)], userStep.2⟩
      else
        ⟨st2, [rewritten], [], userStep.2⟩

/-- The tail of `readFromAgent` (proxy): when the agent's stream ends,
mark the agent dead and drain every pending entry into a synthetic
error response (code -32603, "Agent process exited") sent to the entry's
frontend with the original raw id, deleting the entry.  Returns the new
state and the drain sends (in table order; `sync.Map.Range` order is
unspecified). -/
def onAgentExit (st : ProxyState) : ProxyState × List (Nat × Json) :=
  ({ st with agentDead := true, pending := [] },
   st.pending.map (fun e => (e.2.frontend, agentExitedError e.2.originalID)))

/-- `routeReverseCall` (proxy): record the agent request's raw id in the
pending-reverse table, then send `fs/*` and `terminal/*` requests to the
primary only and broadcast everything else to all frontends. -/
def routeReverseCall (st : ProxyState) (env : Envelope) (line : Json) :
    ProxyState × List (Nat × Json) × List (Json × Option Nat) :=
  let st1 :=
    match env.id? with
    | some idJ => { st with pendingReverse := storeReverse st.pendingReverse idJ.encode }
    | none => st
  if env.method.startsWith "fs/" ∨ env.method.startsWith "terminal/" then
    match primaryID st1 with
    | some p => (st1, [(p, line)], [])
    | none => (st1, [], [])
  else
    (st1, [], [(line, none)])

/-- The `KindResponse` branch of `readFromFrontends` (proxy): a frontend
response to a reverse call is forwarded to the agent only when its id is
still in the pending-reverse table (`LoadAndDelete`); otherwise it is a
duplicate and dropped.  The forwarded lines are returned tagged with the
id key they matched. -/
def onFrontendResponse (st : ProxyState) (env : Envelope) (line : Json) :
    ProxyState × List (String × Json) :=
  match env.id? with
  | none => (st, [])
  | some idJ =>
      let key := idJ.encode
      if key ∈ st.pendingReverse then
        ({ st with pendingReverse := deleteReverse st.pendingReverse key }, [(key, line)])
      else
        (st, [])

/-- Fold of the frontend-read loop restricted to reverse-call
responses: requests and notifications do not touch the pending-reverse
table. -/
def processResponses (st : ProxyState) : List (Envelope × Json) → ProxyState × List (String × Json)
  | [] => (st, [])
  | (env, line) :: rest =>
      let step := onFrontendResponse st env line
      let tail := processResponses step.1 rest
      (tail.1, step.2 ++ tail.2)

/-- The proxy ids allocated by a sequence of frontend requests, in
order; each `handleFrontendRequest` allocates the counter's current
value.  This trace uses `ProxyState.nextID`, which idealizes the
counter as an unbounded integer; `allocationTrace64` below gives the
exact `int64` semantics, and the two agree while the lifetime total of
allocations stays below the wrap point. -/
def allocationTrace (st : ProxyState) : List (Nat × Envelope × Json) → List Int
  | [] => []
  | ev :: rest =>
      st.nextID :: allocationTrace (handleFrontendRequest st ev.1 ev.2.1 ev.2.2).state rest

/-- Signed 64-bit wraparound: the value an `int64` takes after
overflow.  Go's `atomic.Int64` arithmetic wraps modulo 2^64 with no
guard. -/
def wrap64 (n : Int) : Int := (n + 2 ^ 63) % 2 ^ 64 - 2 ^ 63

/-- The allocation `proxyID := p.nextID.Add(1) - 1` with exact `int64`
semantics: `Add(1)` stores and returns the wrapped increment, and the
`- 1` wraps as well.  Returns the allocated proxy id and the counter
value left in `nextID`. -/
def allocateProxyID (counter : Int) : Int × Int :=
  let ret := wrap64 (counter + 1)
  (wrap64 (ret - 1), ret)

/-- The proxy ids allocated by `n` consecutive requests under exact
`int64` counter semantics, starting from the given counter value
(`NewProxy` stores 1); each `handleFrontendRequest` performs exactly
one such allocation. -/
def allocationTrace64 : Int → Nat → List Int
  | _, 0 => []
  | counter, n + 1 =>
      (allocateProxyID counter).1 :: allocationTrace64 (allocateProxyID counter).2 n

/-! ## Helper lemmas -/

/-- Flushing never touches the `meta` slot. -/
theorem flushChunks_meta (c : Cache) : c.flushChunks.meta = c.meta := by
  unfold Cache.flushChunks; split <;> rfl

/-- Flushing never touches the `initResp` slot. -/
theorem flushChunks_initResp (c : Cache) : c.flushChunks.initResp = c.initResp := by
  unfold Cache.flushChunks; split <;> rfl

/-- Flushing never touches the `newResp` slot. -/
theorem flushChunks_newResp (c : Cache) : c.flushChunks.newResp = c.newResp := by
  unfold Cache.flushChunks; split <;> rfl

/-- Flushing never touches the `pendingPermission` slot. -/
theorem flushChunks_pendingPermission (c : Cache) :
    c.flushChunks.pendingPermission = c.pendingPermission := by
  unfold Cache.flushChunks; split <;> rfl

/-- Replacing a member makes it the value found by lookup. -/
theorem lookup_setMember (ms : List (String × Json)) (k : String) (v : Json) :
    (setMember ms k v).lookup k = some v := by
  induction ms with
  | nil => simp [setMember, List.lookup]
  | cons hd tl ih =>
      obtain ⟨k0, v0⟩ := hd
      by_cases h : k0 = k
      · subst h; simp [setMember, List.lookup]
      · have hbeq : (k == k0) = false := by
          simp only [beq_eq_false_iff_ne, ne_eq]
          exact fun hh => h hh.symm
        simp [setMember, h, List.lookup, hbeq, ih]

/-! ## Claims -/

/-- C1: for every cache state, `Replay` sends to the joining frontend,
in order, exactly the meta notification if set, the cached initialize
response if set, the cached session/new response if set, every entry of
`updates` in order (after first flushing any in-progress chunk run), and
the pending permission request if unresolved — and nothing else. -/
theorem replay_order (c : Cache) :
    (c.Replay).2 =
      c.meta.toList ++ c.initResp.toList ++ c.newResp.toList
        ++ c.flushChunks.updates ++ c.pendingPermission.toList := by
  have hm := flushChunks_meta c
  have hi := flushChunks_initResp c
  have hn := flushChunks_newResp c
  have hp := flushChunks_pendingPermission c
  unfold Cache.Replay
  dsimp only
  rw [hm, hi, hn, hp]
  cases c.meta <;> cases c.initResp <;> cases c.newResp <;> cases c.pendingPermission <;> rfl

/-- C6: `AddUpdate` implements the coalescing rule: a chunk notification
of the same kind as the accumulator appends its text; a chunk of a
different kind flushes the accumulator and starts a fresh one with this
kind, text and session id; any other kind flushes first and then appends
the original line verbatim to `updates`; and flushing an empty
accumulator is a no-op, while flushing a non-empty one emits a single
synthetic notification with the concatenated text, captured session id
and kind. -/
theorem addUpdate_coalescing_rule (c : Cache) (l : Json) :
    (((parseUpdateType l).1 = "agent_message_chunk"
        ∨ (parseUpdateType l).1 = "agent_thought_chunk") →
      (c.chunkType = (parseUpdateType l).1 →
        c.AddUpdate l = { c with chunkText := c.chunkText ++ (parseUpdateType l).2.1 }) ∧
      (c.chunkType ≠ (parseUpdateType l).1 →
        c.AddUpdate l =
          { c.flushChunks with
              chunkType := (parseUpdateType l).1,
              chunkText := (parseUpdateType l).2.1,
              chunkSessionID := (parseUpdateType l).2.2 })) ∧
    (¬((parseUpdateType l).1 = "agent_message_chunk"
        ∨ (parseUpdateType l).1 = "agent_thought_chunk") →
      c.AddUpdate l = { c.flushChunks with updates := c.flushChunks.updates ++ [l] }) ∧
    (c.chunkType = "" → c.flushChunks = c) ∧
    (c.chunkType ≠ "" →
      c.flushChunks =
        { c with
            updates := c.updates ++ [coalescedNotif c.chunkType c.chunkText c.chunkSessionID],
            chunkType := "",
            chunkText := "" }) := by
  refine ⟨fun hk => ⟨fun hsame => ?_, fun hdiff => ?_⟩, fun hk => ?_, fun h => ?_, fun h => ?_⟩
  · simp [Cache.AddUpdate, hk, hsame]
  · simp [Cache.AddUpdate, hk, hdiff]
  · simp [Cache.AddUpdate, hk]
  · simp [Cache.flushChunks, h]
  · simp [Cache.flushChunks, h]

/-- In-order concatenation of a list of text fragments. -/
def concatTexts : List String → String
  | [] => ""
  | t :: ts => t ++ concatTexts ts

/-- Absorbing a run of chunks of the accumulator's own kind only extends
the accumulated text by their concatenation. -/
theorem addUpdate_same_kind_run (k : String)
    (hk : k = "agent_message_chunk" ∨ k = "agent_thought_chunk") :
    ∀ (ls : List Json) (c : Cache), c.chunkType = k →
      (∀ l ∈ ls, (parseUpdateType l).1 = k) →
      ls.foldl Cache.AddUpdate c
        = { c with chunkText :=
              c.chunkText ++ concatTexts (ls.map (fun l => (parseUpdateType l).2.1)) } := by
  intro ls
  induction ls with
  | nil =>
      intro c _ _
      simp [concatTexts]
  | cons l0 tl ih =>
      intro c hc hall
      have h0 : (parseUpdateType l0).1 = k := hall l0 (by simp)
      have hstep : c.AddUpdate l0 = { c with chunkText := c.chunkText ++ (parseUpdateType l0).2.1 } := by
        simp [Cache.AddUpdate, h0, hk, hc]
      have htl : ∀ l ∈ tl, (parseUpdateType l).1 = k := fun l hl => hall l (by simp [hl])
      calc (l0 :: tl).foldl Cache.AddUpdate c
      _ = tl.foldl Cache.AddUpdate (c.AddUpdate l0) := by simp [List.foldl]
      _ = { c with chunkText :=
              c.chunkText ++ concatTexts ((l0 :: tl).map (fun l => (parseUpdateType l).2.1)) } := by
            rw [hstep, ih _ (by simp [hc]) htl]
            simp [concatTexts, String.append_assoc]

/-- C5: for every maximal run of consecutive `AddUpdate` calls carrying
same-kind chunk notifications, the single coalesced notification that
the flush appends to `updates` has `content.text` equal to the in-order
concatenation of the `content.text` fields of all chunks in the run (and
its session id is the first chunk's), so a late joiner's replayed text
equals the text delivered live. -/
theorem chunk_run_coalescence (c : Cache) (k : String) (l0 : Json) (rest : List Json)
    (hk : k = "agent_message_chunk" ∨ k = "agent_thought_chunk")
    (hstart : c.chunkType ≠ k)
    (h0 : (parseUpdateType l0).1 = k)
    (hrest : ∀ l ∈ rest, (parseUpdateType l).1 = k) :
    ((l0 :: rest).foldl Cache.AddUpdate c).chunkType = k ∧
    ((l0 :: rest).foldl Cache.AddUpdate c).chunkText
      = concatTexts ((l0 :: rest).map (fun l => (parseUpdateType l).2.1)) ∧
    ((l0 :: rest).foldl Cache.AddUpdate c).flushChunks.updates
      = c.flushChunks.updates
        ++ [coalescedNotif k
              (concatTexts ((l0 :: rest).map (fun l => (parseUpdateType l).2.1)))
              (parseUpdateType l0).2.2] ∧
    (parseUpdateType
        (coalescedNotif k
          (concatTexts ((l0 :: rest).map (fun l => (parseUpdateType l).2.1)))
          (parseUpdateType l0).2.2)).2.1
      = concatTexts ((l0 :: rest).map (fun l => (parseUpdateType l).2.1)) := by
  have hkne : k ≠ "" := by rcases hk with h | h <;> subst h <;> decide
  have hstep : c.AddUpdate l0
      = { c.flushChunks with
            chunkType := k,
            chunkText := (parseUpdateType l0).2.1,
            chunkSessionID := (parseUpdateType l0).2.2 } := by
    rw [← h0] at hk hstart hkne ⊢
    simp [Cache.AddUpdate, hk, hstart]
  have hrun := addUpdate_same_kind_run k hk rest
      { c.flushChunks with
          chunkType := k,
          chunkText := (parseUpdateType l0).2.1,
          chunkSessionID := (parseUpdateType l0).2.2 }
      rfl hrest
  have hfold : (l0 :: rest).foldl Cache.AddUpdate c
      = { c.flushChunks with
            chunkType := k,
            chunkText := (parseUpdateType l0).2.1
              ++ concatTexts (rest.map (fun l => (parseUpdateType l).2.1)),
            chunkSessionID := (parseUpdateType l0).2.2 } := by
    simp only [List.foldl]
    rw [hstep, hrun]
  refine ⟨by rw [hfold], by rw [hfold]; simp [concatTexts], ?_, rfl⟩
  rw [hfold]
  simp [Cache.flushChunks, hkne, concatTexts]

/-- C10: `Replay` is not read-only on the cache — it flushes the
in-progress accumulator into `updates` and clears it; consequently a run
of same-kind chunks in progress at attach time is recorded in `updates`
as two separate coalesced notifications (the flushed prefix and a fresh
run restarted by chunks arriving afterwards) instead of one. -/
theorem replay_flushes_and_splits_run (c : Cache) (l : Json) (k : String)
    (hk : k = "agent_message_chunk" ∨ k = "agent_thought_chunk")
    (hc : c.chunkType = k)
    (hl : (parseUpdateType l).1 = k) :
    (c.Replay).1 = c.flushChunks ∧
    (c.Replay).1.updates
      = c.updates ++ [coalescedNotif k c.chunkText c.chunkSessionID] ∧
    (c.Replay).1.chunkType = "" ∧
    (c.Replay).1 ≠ c ∧
    (((c.Replay).1.AddUpdate l).flushChunks).updates
      = c.updates ++ [coalescedNotif k c.chunkText c.chunkSessionID,
                      coalescedNotif k (parseUpdateType l).2.1 (parseUpdateType l).2.2] ∧
    ((c.AddUpdate l).flushChunks).updates
      = c.updates ++ [coalescedNotif k (c.chunkText ++ (parseUpdateType l).2.1) c.chunkSessionID] := by
  have hkne : k ≠ "" := by rcases hk with h | h <;> subst h <;> decide
  have hcne : c.chunkType ≠ "" := by rw [hc]; exact hkne
  have hflush : c.flushChunks
      = { c with
            updates := c.updates ++ [coalescedNotif c.chunkType c.chunkText c.chunkSessionID],
            chunkType := "",
            chunkText := "" } := by
    simp [Cache.flushChunks, hcne]
  have hreplay : (c.Replay).1 = c.flushChunks := rfl
  refine ⟨hreplay, ?_, ?_, ?_, ?_, ?_⟩
  · rw [hreplay, hflush, hc]
  · rw [hreplay, hflush]
  · intro h
    have := congrArg Cache.chunkType h
    rw [hreplay, hflush, hc] at this
    exact hkne this.symm
  · have hstart : (c.Replay).1.chunkType ≠ k := by
      rw [hreplay, hflush]
      exact fun hh => hkne hh.symm
    have hstep : (c.Replay).1.AddUpdate l
        = { (c.Replay).1.flushChunks with
              chunkType := k,
              chunkText := (parseUpdateType l).2.1,
              chunkSessionID := (parseUpdateType l).2.2 } := by
      rw [← hl] at hk hstart ⊢
      simp [Cache.AddUpdate, hk, hstart]
    have hnoop : (c.Replay).1.flushChunks = (c.Replay).1 := by
      have : (c.Replay).1.chunkType = "" := by rw [hreplay, hflush]
      simp [Cache.flushChunks, this]
    rw [hstep, hnoop]
    simp [Cache.flushChunks, hkne, hreplay, hflush, hc]
  · have hstep : c.AddUpdate l = { c with chunkText := c.chunkText ++ (parseUpdateType l).2.1 } := by
      simp [Cache.AddUpdate, hl, hk, hc]
    rw [hstep]
    simp [Cache.flushChunks, hc, hkne]

/-- A concrete `agent_message_chunk` notification carrying the text
"Hel" for session "s1". -/
def sampleChunkHel : Json :=
  .obj [("jsonrpc", .str "2.0"),
        ("method", .str "session/update"),
        ("params", .obj
          [("sessionId", .str "s1"),
           ("update", .obj
             [("content", .obj [("text", .str "Hel"), ("type", .str "text")]),
              ("sessionUpdate", .str "agent_message_chunk")])])]

/-- A concrete `agent_message_chunk` notification carrying the text
"lo" for session "s1". -/
def sampleChunkLo : Json :=
  .obj [("jsonrpc", .str "2.0"),
        ("method", .str "session/update"),
        ("params", .obj
          [("sessionId", .str "s1"),
           ("update", .obj
             [("content", .obj [("text", .str "lo"), ("type", .str "text")]),
              ("sessionUpdate", .str "agent_message_chunk")])])]

/-- A cache in the middle of an `agent_message_chunk` run that has
accumulated the text "Hel". -/
def sampleRunCache : Cache :=
  { chunkType := "agent_message_chunk", chunkText := "Hel", chunkSessionID := "s1" }

/-- Witness for the C5 theorem at a concrete two-chunk run. -/
theorem chunk_run_coalescence_witness :
    (([sampleChunkHel, sampleChunkLo].foldl Cache.AddUpdate ({} : Cache)).flushChunks).updates
      = [coalescedNotif "agent_message_chunk" "Hello" "s1"] := by
  have h := chunk_run_coalescence {} "agent_message_chunk" sampleChunkHel [sampleChunkLo]
    (Or.inl rfl) (by decide) rfl (by decide)
  simpa using h.2.2.1

/-- Witness for the C6 theorem: same-kind accumulation and the empty
flush, at concrete inputs. -/
theorem addUpdate_coalescing_rule_witness :
    Cache.AddUpdate sampleRunCache sampleChunkLo = { sampleRunCache with chunkText := "Hello" } ∧
    Cache.flushChunks ({} : Cache) = {} := by
  constructor
  · have h := ((addUpdate_coalescing_rule sampleRunCache sampleChunkLo).1 (Or.inl rfl)).1 rfl
    simpa using h
  · exact (addUpdate_coalescing_rule {} (.obj [])).2.2.1 rfl

/-- Witness for the C10 theorem: replaying in mid-run records the run as
two coalesced notifications, where without the replay it is one. -/
theorem replay_flushes_and_splits_run_witness :
    ((((sampleRunCache.Replay).1.AddUpdate sampleChunkLo).flushChunks).updates
        = [coalescedNotif "agent_message_chunk" "Hel" "s1",
           coalescedNotif "agent_message_chunk" "lo" "s1"]) ∧
    (((sampleRunCache.AddUpdate sampleChunkLo).flushChunks).updates
        = [coalescedNotif "agent_message_chunk" "Hello" "s1"]) := by
  have h := replay_flushes_and_splits_run sampleRunCache sampleChunkLo "agent_message_chunk"
    (Or.inl rfl) rfl rfl
  exact ⟨by simpa using h.2.2.2.2.1, by simpa using h.2.2.2.2.2⟩

/-- C4 counterexample: the input is a JSON object with a `method` member
and an `id` member whose value is JSON null, yet `parseEnvelope` yields
an envelope whose id is absent — Go's decoder nils a settable pointer
field (`ID *json.RawMessage`) on JSON null, so the raw bytes are *not*
retained — and `classify` therefore returns `notification`, not
`request`. -/
theorem null_id_classified_notification :
    parseEnvelope (.obj [("jsonrpc", .str "2.0"), ("id", .null), ("method", .str "ping")])
      = some { jsonrpc := "2.0", id? := none, method := "ping" } ∧
    classify { jsonrpc := "2.0", id? := none, method := "ping" } = .notification ∧
    MessageKind.notification ≠ MessageKind.request := by
  refine ⟨rfl, rfl, by decide⟩

/-- C4 (amended): for every input line that parses as a JSON object
containing a method member and an `id` member whose value is JSON null,
`parseEnvelope` yields an envelope whose id is *absent* (the null is
decoded into a nil `*json.RawMessage`, the raw bytes are not retained),
and `classify` therefore returns `notification`, not `request`. -/
theorem null_id_treated_as_absent (ms : List (String × Json)) (env : Envelope)
    (hp : parseEnvelope (.obj ms) = some env)
    (hid : Json.lookupMember (.obj ms) "id" = some .null)
    (hm : env.method ≠ "") :
    env.id? = none ∧ classify env = .notification := by
  have hp' : (match strField (.obj ms) "jsonrpc", strField (.obj ms) "method" with
      | some jr, some m =>
          some { jsonrpc := jr, id? := idField (.obj ms), method := m,
                 params? := rawField (.obj ms) "params",
                 result? := rawField (.obj ms) "result",
                 error? := rawField (.obj ms) "error" }
      | _, _ => none) = some env := hp
  cases hjr : strField (.obj ms) "jsonrpc" with
  | none => rw [hjr] at hp'; cases hp'
  | some jr =>
      cases hmf : strField (.obj ms) "method" with
      | none => rw [hjr, hmf] at hp'; cases hp'
      | some m =>
          rw [hjr, hmf] at hp'
          have henv : env = { jsonrpc := jr, id? := idField (.obj ms), method := m,
                              params? := rawField (.obj ms) "params",
                              result? := rawField (.obj ms) "result",
                              error? := rawField (.obj ms) "error" } :=
            (Option.some.injEq _ _ ▸ hp').symm
          have hideq : env.id? = none := by
            rw [henv]
            simp [idField, hid]
          refine ⟨hideq, ?_⟩
          simp [classify, hm, hideq]

/-- Witness for the amended C4 theorem at the concrete null-id line. -/
theorem null_id_treated_as_absent_witness :
    ({ jsonrpc := "2.0", id? := none, method := "ping" } : Envelope).id? = none ∧
    classify { jsonrpc := "2.0", id? := none, method := "ping" } = .notification :=
  null_id_treated_as_absent
    [("jsonrpc", .str "2.0"), ("id", .null), ("method", .str "ping")]
    { jsonrpc := "2.0", id? := none, method := "ping" }
    rfl rfl (by decide)

/-- C2: a response the proxy delivers back to a frontend carries the id
of the frontend's original request, unchanged: for any request envelope
with raw id `j` forwarded through `handleFrontendRequest`, the agent's
response to the allocated proxy id is restored by
`routeResponseToFrontend` to a line whose `id` member is exactly `j`
and is sent to the requesting frontend alone. -/
theorem response_id_roundtrip (st : ProxyState) (f : Nat) (env : Envelope)
    (ms ns : List (String × Json)) (j : Json) (respEnv : Envelope)
    (hid : env.id? = some j)
    (halive : st.agentDead = false)
    (hrespid : respEnv.id? = some (.num st.nextID)) :
    (routeResponseToFrontend (handleFrontendRequest st f env (.obj ms)).state
        respEnv (.obj ns)).sends
      = [(f, .obj (setMember ns "id" j))] ∧
    (Json.obj (setMember ns "id" j)).lookupMember "id" = some j := by
  constructor
  · have hpend : (handleFrontendRequest st f env (.obj ms)).state.pending
        = (st.nextID,
            ({ originalID := env.id?, frontend := f, method := env.method,
               params? := env.params? } : PendingRequest)) :: st.pending := by
      simp [handleFrontendRequest, rewriteID, halive]
    have hlook : lookupPending (handleFrontendRequest st f env (.obj ms)).state.pending st.nextID
        = some { originalID := env.id?, frontend := f, method := env.method,
                 params? := env.params? } := by
      rw [hpend]
      simp [lookupPending]
    simp [routeResponseToFrontend, hrespid, numericID, hlook, restoreID, hid]
  · simpa [Json.lookupMember] using lookup_setMember ns "id" j

/-- Witness for the C2 theorem: a request with the string id "abc"
forwarded from the initial proxy state gets its response back with the
id "abc". -/
theorem response_id_roundtrip_witness :
    (routeResponseToFrontend
        (handleFrontendRequest (NewProxy [⟨1, true⟩]) 1
          { jsonrpc := "2.0", id? := some (.str "abc"), method := "foo" }
          (.obj [("id", .str "abc"), ("jsonrpc", .str "2.0"), ("method", .str "foo")])).state
        { jsonrpc := "2.0", id? := some (.num 1) }
        (.obj [("id", .num 1), ("jsonrpc", .str "2.0"), ("result", .obj [])])).sends
      = [(1, .obj [("id", .str "abc"), ("jsonrpc", .str "2.0"), ("result", .obj [])])] :=
  (response_id_roundtrip (NewProxy [⟨1, true⟩]) 1
    { jsonrpc := "2.0", id? := some (.str "abc"), method := "foo" }
    [("id", .str "abc"), ("jsonrpc", .str "2.0"), ("method", .str "foo")]
    [("id", .num 1), ("jsonrpc", .str "2.0"), ("result", .obj [])]
    (.str "abc")
    { jsonrpc := "2.0", id? := some (.num 1) }
    rfl rfl rfl).1

/-- C3: when the agent's inbound stream ends, the proxy marks the agent
dead and sends, for every pending entry, exactly one JSON-RPC error
response with code -32603, message "Agent process exited" and the
entry's original raw id to that entry's frontend, deleting the entry;
no pending entry survives, and a response processed against the drained
state delivers nothing. -/
theorem agent_death_drain (st : ProxyState) :
    (onAgentExit st).1.agentDead = true ∧
    (onAgentExit st).1.pending = [] ∧
    (onAgentExit st).2
      = st.pending.map (fun e => (e.2.frontend, agentExitedError e.2.originalID)) ∧
    (∀ pid : Int, lookupPending (onAgentExit st).1.pending pid = none) ∧
    (∀ (respEnv : Envelope) (line : Json) (pid : Int),
        respEnv.id? = some (.num pid) →
        (routeResponseToFrontend (onAgentExit st).1 respEnv line).sends = [] ∧
        (routeResponseToFrontend (onAgentExit st).1 respEnv line).broadcasts = []) := by
  refine ⟨rfl, rfl, rfl, fun pid => rfl, fun respEnv line pid h => ?_⟩
  constructor <;> simp [routeResponseToFrontend, h, numericID, lookupPending, onAgentExit]

/-- Witness for the C3 theorem: draining a state with one pending
`session/prompt` from frontend 1 (original id 42) emits exactly the
synthesized error to frontend 1, and the drained state delivers nothing
for a later response with the same proxy id. -/
theorem agent_death_drain_witness :
    (onAgentExit
        { pending := [(7, { originalID := some (.num 42), frontend := 1,
                            method := "session/prompt" })],
          frontends := [⟨1, true⟩] }).2
      = [(1, agentExitedError (some (.num 42)))] ∧
    (routeResponseToFrontend
        (onAgentExit
          { pending := [(7, { originalID := some (.num 42), frontend := 1,
                              method := "session/prompt" })],
            frontends := [⟨1, true⟩] }).1
        { id? := some (.num 7) }
        (.obj [("id", .num 7), ("result", .obj [])])).sends = [] := by
  have h := agent_death_drain
    { pending := [(7, { originalID := some (.num 42), frontend := 1,
                        method := "session/prompt" })],
      frontends := [⟨1, true⟩] }
  exact ⟨by rw [h.2.2.1]; rfl, (h.2.2.2.2 { id? := some (.num 7) }
    (.obj [("id", .num 7), ("result", .obj [])]) 7 rfl).1⟩

/-- C7 counterexample: a response to a forwarded `session/prompt`
request whose `result` carries no `stopReason` produces *no*
`turn_complete` notification at all — `synthesizeTurnComplete` returns
early on an empty stop reason, nothing is broadcast and the cache is
untouched — refuting "for every response ... exactly one". -/
theorem turn_complete_missing_for_empty_stop_reason :
    synthesizeTurnComplete (.obj [("id", .num 7), ("jsonrpc", .str "2.0"),
                                  ("result", .obj [])]) = none ∧
    (routeResponseToFrontend
        { pending := [(7, { originalID := some (.num 5), frontend := 1,
                            method := "session/prompt" })],
          frontends := [⟨1, true⟩, ⟨2, false⟩] }
        { id? := some (.num 7) }
        (.obj [("id", .num 7), ("jsonrpc", .str "2.0"), ("result", .obj [])])).broadcasts
      = [] ∧
    (routeResponseToFrontend
        { pending := [(7, { originalID := some (.num 5), frontend := 1,
                            method := "session/prompt" })],
          frontends := [⟨1, true⟩, ⟨2, false⟩] }
        { id? := some (.num 7) }
        (.obj [("id", .num 7), ("jsonrpc", .str "2.0"), ("result", .obj [])])).state.cache
      = ({} : Cache) := by
  refine ⟨rfl, rfl, rfl⟩

/-- C7 (amended): for every response to a forwarded `session/prompt`
request whose result decodes and carries a non-empty
`result.stopReason`, the proxy synthesizes exactly one `turn_complete`
notification whose `update.stopReason` equals the response's
`result.stopReason` and whose `params.sessionId` equals the response's
`result.sessionId`, adds it to the cache, and broadcasts it to every
frontend except the one that sent the prompt; when the stop reason is
empty or missing, nothing is synthesized. -/
theorem turn_complete_synthesis (st : ProxyState) (respEnv : Envelope) (line : Json)
    (pid : Int) (pr : PendingRequest) (stop sid : String)
    (hrespid : respEnv.id? = some (.num pid))
    (hpr : lookupPending st.pending pid = some pr)
    (hm : pr.method = "session/prompt")
    (hdec : turnCompleteDecode line = some (stop, sid))
    (hstop : stop ≠ "") :
    (routeResponseToFrontend st respEnv line).broadcasts
      = [(turnCompleteNotif sid stop, some pr.frontend)] ∧
    (routeResponseToFrontend st respEnv line).state.cache
      = st.cache.AddUpdate (turnCompleteNotif sid stop) ∧
    ((turnCompleteNotif sid stop).lookupMember "params").bind
        (fun p => p.lookupMember "sessionId") = some (.str sid) ∧
    (((turnCompleteNotif sid stop).lookupMember "params").bind
        (fun p => p.lookupMember "update")).bind
        (fun u => u.lookupMember "stopReason") = some (.str stop) ∧
    broadcastRecipients (routeResponseToFrontend st respEnv line).state (some pr.frontend)
      = ((routeResponseToFrontend st respEnv line).state.frontends.filter
          (fun fr => fr.fid ≠ pr.frontend)).map (·.fid) := by
  have hsynth : synthesizeTurnComplete line = some (turnCompleteNotif sid stop) := by
    simp [synthesizeTurnComplete, hdec, hstop]
  have hm1 : pr.method ≠ "initialize" := by rw [hm]; decide
  have hm2 : pr.method ≠ "session/new" := by rw [hm]; decide
  have hm3 : pr.method ≠ "session/set_mode" := by rw [hm]; decide
  refine ⟨?_, ?_, rfl, rfl, ?_⟩
  · simp only [routeResponseToFrontend, hrespid, numericID, hpr, hm, hm1, hm2, hm3, hsynth,
      if_true, if_false, ite_false, ite_true]
    simp [hm1, hm2, hm3, hsynth, hm]
    cases restoreID line (pr.originalID.getD Json.null) <;> rfl
  · simp only [routeResponseToFrontend, hrespid, numericID, hpr, hm, hm1, hm2, hm3, hsynth,
      if_true, if_false, ite_false, ite_true]
    simp [hm1, hm2, hm3, hsynth, hm]
    cases restoreID line (pr.originalID.getD Json.null) <;> rfl
  · simp [broadcastRecipients]

/-- Witness for the amended C7 theorem at a concrete `session/prompt`
response with stop reason "end_turn". -/
theorem turn_complete_synthesis_witness :
    (routeResponseToFrontend
        { pending := [(7, { originalID := some (.num 5), frontend := 1,
                            method := "session/prompt" })],
          frontends := [⟨1, true⟩, ⟨2, false⟩] }
        { id? := some (.num 7) }
        (.obj [("id", .num 7), ("jsonrpc", .str "2.0"),
               ("result", .obj [("sessionId", .str "s1"),
                                ("stopReason", .str "end_turn")])])).broadcasts
      = [(turnCompleteNotif "s1" "end_turn", some 1)] := by
  have h := turn_complete_synthesis
    { pending := [(7, { originalID := some (.num 5), frontend := 1,
                        method := "session/prompt" })],
      frontends := [⟨1, true⟩, ⟨2, false⟩] }
    { id? := some (.num 7) }
    (.obj [("id", .num 7), ("jsonrpc", .str "2.0"),
           ("result", .obj [("sessionId", .str "s1"), ("stopReason", .str "end_turn")])])
    7 { originalID := some (.num 5), frontend := 1, method := "session/prompt" }
    "end_turn" "s1" rfl rfl rfl rfl (by decide)
  exact h.1

/-- Handling a frontend request advances the proxy-id counter by
exactly one, on every code path. -/
theorem handleFrontendRequest_nextID (st : ProxyState) (f : Nat) (env : Envelope) (l : Json) :
    (handleFrontendRequest st f env l).state.nextID = st.nextID + 1 := by
  unfold handleFrontendRequest
  cases l with
  | obj ms => simp only [rewriteID]; split <;> rfl
  | null => rfl
  | bool b => rfl
  | num n => rfl
  | str s => rfl
  | arr es => rfl

/-- The allocation trace of a request sequence is the counter's
consecutive values. -/
theorem allocationTrace_eq (evs : List (Nat × Envelope × Json)) :
    ∀ st : ProxyState,
      allocationTrace st evs
        = (List.range evs.length).map (fun i : Nat => st.nextID + (i : Int)) := by
  induction evs with
  | nil => intro st; rfl
  | cons ev tl ih =>
      intro st
      rw [allocationTrace, ih, handleFrontendRequest_nextID, List.length_cons,
        List.range_succ_eq_map]
      simp only [List.map_cons, Nat.cast_zero, add_zero, List.map_map, Function.comp_def,
        List.cons.injEq, true_and]
      apply List.map_congr_left
      intro i _
      push_cast
      ring

/-- `wrap64` always lands in the signed 64-bit range. -/
theorem wrap64_bounds (x : Int) : -2 ^ 63 ≤ wrap64 x ∧ wrap64 x < 2 ^ 63 := by
  unfold wrap64; omega

/-- `wrap64` is the identity on the signed 64-bit range. -/
theorem wrap64_eq_self (c : Int) (h1 : -2 ^ 63 ≤ c) (h2 : c < 2 ^ 63) : wrap64 c = c := by
  unfold wrap64; omega

/-- Wrapping composes: wrapping an already wrapped summand changes
nothing. -/
theorem wrap64_add_wrap64 (x y : Int) : wrap64 (wrap64 x + y) = wrap64 (x + y) := by
  unfold wrap64; omega

/-- One `int64` allocation from an in-range counter returns the counter
value and stores its wrapped successor. -/
theorem allocateProxyID_spec (c : Int) (h1 : -2 ^ 63 ≤ c) (h2 : c < 2 ^ 63) :
    allocateProxyID c = (c, wrap64 (c + 1)) := by
  show (wrap64 (wrap64 (c + 1) - 1), wrap64 (c + 1)) = (c, wrap64 (c + 1))
  have ha : wrap64 (wrap64 (c + 1) - 1) = c := by
    unfold wrap64
    omega
  rw [ha]

/-- Below the wrap point the `int64` allocation agrees with the
unbounded idealization: it yields the counter value and advances it by
one. -/
theorem allocateProxyID_no_wrap (c : Int) (h1 : -2 ^ 63 ≤ c) (h2 : c < 2 ^ 63 - 1) :
    allocateProxyID c = (c, c + 1) := by
  show (wrap64 (wrap64 (c + 1) - 1), wrap64 (c + 1)) = (c, c + 1)
  have ha : wrap64 (wrap64 (c + 1) - 1) = c := by
    unfold wrap64
    omega
  have hb : wrap64 (c + 1) = c + 1 := wrap64_eq_self _ (by omega) (by omega)
  rw [ha, hb]

/-- The `int64` allocation trace from an in-range counter is the
wrapped arithmetic progression. -/
theorem allocationTrace64_spec :
    ∀ (n : Nat) (c : Int), -2 ^ 63 ≤ c → c < 2 ^ 63 →
      allocationTrace64 c n = (List.range n).map (fun k : Nat => wrap64 (c + (k : Int))) := by
  intro n
  induction n with
  | zero => intro c _ _; rfl
  | succ m ih =>
      intro c h1 h2
      simp only [allocationTrace64]
      rw [allocateProxyID_spec c h1 h2]
      have hb := wrap64_bounds (c + 1)
      rw [ih (wrap64 (c + 1)) hb.1 hb.2, List.range_succ_eq_map]
      simp only [List.map_cons, Nat.cast_zero, add_zero, List.map_map, Function.comp_def,
        List.cons.injEq]
      refine ⟨(wrap64_eq_self c h1 h2).symm, ?_⟩
      apply List.map_congr_left
      intro k _
      rw [wrap64_add_wrap64]
      congr 1
      push_cast
      ring

/-- C8 counterexample: the proxy-id counter is a wrapping `int64`, so
over a full proxy lifetime the allocated ids are *not* strictly
increasing.  Allocating at the maximal counter value 2^63 - 1 stores
the wrapped counter -2^63, the next allocation yields the id -2^63 —
smaller than every id allocated before — and concretely the trace of
2^63 allocations from the initial counter 1 is not pairwise
increasing. -/
theorem proxy_id_wraparound :
    allocateProxyID (2 ^ 63 - 1) = (2 ^ 63 - 1, -2 ^ 63) ∧
    allocateProxyID (-2 ^ 63) = (-2 ^ 63, -2 ^ 63 + 1) ∧
    ¬ (allocationTrace64 1 (2 ^ 63)).Pairwise (· < ·) := by
  refine ⟨by decide, by decide, ?_⟩
  · intro hp
    rw [allocationTrace64_spec (2 ^ 63) 1 (by omega) (by omega),
      List.pairwise_iff_getElem] at hp
    have h2 := hp 0 (2 ^ 63 - 1) (by simp) (by simp) (by omega)
    simp only [List.getElem_map, List.getElem_range] at h2
    unfold wrap64 at h2
    push_cast at h2

/-- C8 (amended): the proxy-id counter starts at 1 and each request
allocation returns the counter's current value and advances it by one;
as long as the lifetime total of allocations is at most 2^63 - 1 —
before the `int64` counter can wrap — the allocated ids are 1, 2, 3, …:
strictly increasing, pairwise distinct (never reused), the exact
`int64` trace coincides with the per-request trace of
`handleFrontendRequest`, and every key newly present in the pending
table is the freshly allocated id.  (At the 2^63-rd allocation the
counter wraps and monotonicity fails; see the counterexample.) -/
theorem proxy_id_allocation_before_wrap :
    (∀ frontends : List FrontendInfo, (NewProxy frontends).nextID = 1) ∧
    (∀ c : Int, -2 ^ 63 ≤ c → c < 2 ^ 63 - 1 → allocateProxyID c = (c, c + 1)) ∧
    (∀ (st : ProxyState) (f : Nat) (env : Envelope) (l : Json) (pid : Int) (pr : PendingRequest),
        (pid, pr) ∈ (handleFrontendRequest st f env l).state.pending →
        pid = st.nextID ∨ (pid, pr) ∈ st.pending) ∧
    (∀ n : Nat, (n : Int) ≤ 2 ^ 63 - 1 →
        allocationTrace64 1 n = (List.range n).map (fun k : Nat => 1 + (k : Int))) ∧
    (∀ (frontends : List FrontendInfo) (evs : List (Nat × Envelope × Json)),
        (evs.length : Int) ≤ 2 ^ 63 - 1 →
        allocationTrace (NewProxy frontends) evs = allocationTrace64 1 evs.length) ∧
    (∀ n : Nat, (n : Int) ≤ 2 ^ 63 - 1 → (allocationTrace64 1 n).Pairwise (· < ·)) ∧
    (∀ n : Nat, (n : Int) ≤ 2 ^ 63 - 1 → (allocationTrace64 1 n).Nodup) := by
  have htrace : ∀ n : Nat, (n : Int) ≤ 2 ^ 63 - 1 →
      allocationTrace64 1 n = (List.range n).map (fun k : Nat => 1 + (k : Int)) := by
    intro n hn
    rw [allocationTrace64_spec n 1 (by omega) (by omega)]
    apply List.map_congr_left
    intro k hk
    rw [List.mem_range] at hk
    have hk' : (k : Int) < n := by exact_mod_cast hk
    exact wrap64_eq_self _ (by omega) (by omega)
  have hpair : ∀ n : Nat, (n : Int) ≤ 2 ^ 63 - 1 →
      (allocationTrace64 1 n).Pairwise (· < ·) := by
    intro n hn
    rw [htrace n hn, List.pairwise_map]
    exact (List.pairwise_lt_range _).imp
      (fun hab => add_lt_add_left (by exact_mod_cast hab) _)
  refine ⟨fun _ => rfl, allocateProxyID_no_wrap, ?_, htrace, ?_, hpair, ?_⟩
  · intro st f env l pid pr hmem
    unfold handleFrontendRequest at hmem
    cases l <;> simp only [rewriteID] at hmem <;>
      [skip; skip; skip; skip; skip; split at hmem] <;>
      simp only [deletePending, List.mem_filter, List.mem_cons, Prod.mk.injEq,
        decide_eq_true_eq] at hmem <;>
      tauto
  · intro frontends evs hlen
    rw [allocationTrace_eq evs (NewProxy frontends), htrace evs.length hlen]
    rfl
  · intro n hn
    exact (hpair n hn).imp (fun hab => ne_of_lt hab)

/-- Witness for the amended C8 theorem: three allocations from the
initial counter yield the ids 1, 2, 3 (pairwise increasing and
distinct), an in-range allocation advances the counter by one, and the
entry stored by a first request carries the allocated id 1. -/
theorem proxy_id_allocation_before_wrap_witness :
    allocationTrace64 1 3 = [1, 2, 3] ∧
    (allocationTrace64 1 3).Pairwise (· < ·) ∧
    allocateProxyID 5 = (5, 6) ∧
    ((1 : Int) = (NewProxy [⟨1, true⟩]).nextID ∨
      ((1 : Int), ({ frontend := 1 } : PendingRequest)) ∈ (NewProxy [⟨1, true⟩]).pending) := by
  have h := proxy_id_allocation_before_wrap
  refine ⟨?_, ?_, ?_, ?_⟩
  · rw [h.2.2.2.1 3 (by norm_num)]; rfl
  · exact h.2.2.2.2.2.1 3 (by norm_num)
  · exact h.2.1 5 (by norm_num) (by norm_num)
  · exact h.2.2.1 (NewProxy [⟨1, true⟩]) 1 {} (.obj []) 1 { frontend := 1 }
      (by simp [handleFrontendRequest, rewriteID, NewProxy])

/-- The state component of `routeReverseCall` only records the request
id in the pending-reverse table. -/
theorem routeReverseCall_pendingReverse (st : ProxyState) (env : Envelope) (line : Json) :
    (routeReverseCall st env line).1.pendingReverse
      = match env.id? with
        | some idJ => storeReverse st.pendingReverse idJ.encode
        | none => st.pendingReverse := by
  unfold routeReverseCall
  cases env.id? <;> dsimp only <;> split <;> first | rfl | (split <;> rfl)

/-- Storing a key puts it in the table. -/
theorem mem_storeReverse (s : List String) (k : String) : k ∈ storeReverse s k := by
  unfold storeReverse
  split
  · assumption
  · exact List.mem_cons_self _ _

/-- Deleting a key removes exactly that key. -/
theorem mem_deleteReverse (s : List String) (key k0 : String) :
    k0 ∈ deleteReverse s key ↔ k0 ∈ s ∧ k0 ≠ key := by
  simp [deleteReverse]

/-- First-response-wins, inductively: with a key in the pending-reverse
table, the responses forwarded for that key are exactly the first
arriving response carrying it; with the key absent, none is forwarded. -/
theorem processResponses_filter_key (k : String) :
    ∀ (evs : List (Envelope × Json)) (st : ProxyState),
      (k ∈ st.pendingReverse →
        ((processResponses st evs).2.filter (fun e => e.1 = k))
          = ((evs.filter (fun ev => ev.1.id?.map Json.encode = some k)).map
              (fun ev => (k, ev.2))).take 1) ∧
      (k ∉ st.pendingReverse →
        ((processResponses st evs).2.filter (fun e => e.1 = k)) = []) := by
  intro evs
  induction evs with
  | nil => intro st; exact ⟨fun _ => rfl, fun _ => rfl⟩
  | cons ev tl ih =>
      intro st
      obtain ⟨env, line⟩ := ev
      cases hid : env.id? with
      | none =>
          have hps : (processResponses st ((env, line) :: tl)).2
              = (processResponses st tl).2 := by
            simp [processResponses, onFrontendResponse, hid]
          have hflt : ((env, line) :: tl).filter
                (fun ev => ev.1.id?.map Json.encode = some k)
              = tl.filter (fun ev => ev.1.id?.map Json.encode = some k) := by
            simp [List.filter_cons, hid]
          exact ⟨fun hk => by rw [hps, hflt]; exact (ih st).1 hk,
                 fun hk => by rw [hps]; exact (ih st).2 hk⟩
      | some idJ =>
          by_cases hmem : idJ.encode ∈ st.pendingReverse
          · have hps : (processResponses st ((env, line) :: tl)).2
                = (idJ.encode, line) ::
                    (processResponses
                      { st with pendingReverse := deleteReverse st.pendingReverse idJ.encode }
                      tl).2 := by
              simp [processResponses, onFrontendResponse, hid, hmem]
            by_cases hkey : idJ.encode = k
            · subst hkey
              have hflt : ((env, line) :: tl).filter
                    (fun ev => ev.1.id?.map Json.encode = some idJ.encode)
                  = (env, line) ::
                      tl.filter (fun ev => ev.1.id?.map Json.encode = some idJ.encode) := by
                simp [List.filter_cons, hid]
              refine ⟨fun hk => ?_, fun hk => absurd hmem hk⟩
              have hnot : idJ.encode ∉ deleteReverse st.pendingReverse idJ.encode := by
                rw [mem_deleteReverse]
                simp
              have htail := (ih { st with
                  pendingReverse := deleteReverse st.pendingReverse idJ.encode }).2 hnot
              rw [hps, hflt]
              simp [List.filter_cons, htail]
            · have hflt : ((env, line) :: tl).filter
                    (fun ev => ev.1.id?.map Json.encode = some k)
                  = tl.filter (fun ev => ev.1.id?.map Json.encode = some k) := by
                simp [List.filter_cons, hid, hkey]
              constructor
              · intro hk
                have hk' : k ∈ deleteReverse st.pendingReverse idJ.encode := by
                  rw [mem_deleteReverse]
                  exact ⟨hk, fun h => hkey h.symm⟩
                have htail := (ih { st with
                    pendingReverse := deleteReverse st.pendingReverse idJ.encode }).1 hk'
                rw [hps, hflt]
                simp only [List.filter_cons, decide_eq_true_eq]
                rw [if_neg (by simpa using hkey)]
                exact htail
              · intro hk
                have hk' : k ∉ deleteReverse st.pendingReverse idJ.encode := by
                  rw [mem_deleteReverse]
                  exact fun h => hk h.1
                have htail := (ih { st with
                    pendingReverse := deleteReverse st.pendingReverse idJ.encode }).2 hk'
                rw [hps]
                simp only [List.filter_cons, decide_eq_true_eq]
                rw [if_neg (by simpa using hkey)]
                exact htail
          · have hps : (processResponses st ((env, line) :: tl)).2
                = (processResponses st tl).2 := by
              simp [processResponses, onFrontendResponse, hid, hmem]
            constructor
            · intro hk
              have hkey : idJ.encode ≠ k := fun h => hmem (h ▸ hk)
              have hflt : ((env, line) :: tl).filter
                    (fun ev => ev.1.id?.map Json.encode = some k)
                  = tl.filter (fun ev => ev.1.id?.map Json.encode = some k) := by
                simp [List.filter_cons, hid, hkey]
              rw [hps, hflt]
              exact (ih st).1 hk
            · intro hk
              rw [hps]
              exact (ih st).2 hk

/-- C9: for an agent reverse request with id recorded by
`routeReverseCall`, at most one frontend response with that id is ever
forwarded to the agent: the first matching response wins (it deletes the
pending-reverse entry and is forwarded) and every later response with
the same id is dropped. -/
theorem reverse_call_first_response_wins (st0 : ProxyState) (reqEnv : Envelope)
    (reqLine : Json) (idJ : Json) (evs : List (Envelope × Json))
    (hid : reqEnv.id? = some idJ) :
    idJ.encode ∈ (routeReverseCall st0 reqEnv reqLine).1.pendingReverse ∧
    ((processResponses (routeReverseCall st0 reqEnv reqLine).1 evs).2.filter
        (fun e => e.1 = idJ.encode))
      = ((evs.filter (fun ev => ev.1.id?.map Json.encode = some idJ.encode)).map
          (fun ev => (idJ.encode, ev.2))).take 1 ∧
    ((processResponses (routeReverseCall st0 reqEnv reqLine).1 evs).2.filter
        (fun e => e.1 = idJ.encode)).length ≤ 1 := by
  have hmem : idJ.encode ∈ (routeReverseCall st0 reqEnv reqLine).1.pendingReverse := by
    rw [routeReverseCall_pendingReverse, hid]
    exact mem_storeReverse _ _
  have hfil := (processResponses_filter_key idJ.encode evs _).1 hmem
  refine ⟨hmem, hfil, ?_⟩
  rw [hfil]
  exact le_trans (List.length_take_le _ _) (le_refl 1)

/-- Witness for the C9 theorem: two frontend responses to the same
permission request id 9 — only the first is forwarded. -/
theorem reverse_call_first_response_wins_witness :
    ((processResponses
        (routeReverseCall (NewProxy [⟨1, true⟩, ⟨2, false⟩])
          { id? := some (.num 9), method := "session/request_permission" }
          (.obj [("id", .num 9), ("method", .str "session/request_permission")])).1
        [({ id? := some (.num 9) },
          .obj [("id", .num 9), ("result", .obj [("outcome", .str "allow")])]),
         ({ id? := some (.num 9) },
          .obj [("id", .num 9), ("result", .obj [("outcome", .str "deny")])])]).2.filter
        (fun e => e.1 = (Json.num 9).encode))
      = [((Json.num 9).encode,
          .obj [("id", .num 9), ("result", .obj [("outcome", .str "allow")])])] := by
  have h := reverse_call_first_response_wins (NewProxy [⟨1, true⟩, ⟨2, false⟩])
    { id? := some (.num 9), method := "session/request_permission" }
    (.obj [("id", .num 9), ("method", .str "session/request_permission")])
    (.num 9)
    [({ id? := some (.num 9) },
      .obj [("id", .num 9), ("result", .obj [("outcome", .str "allow")])]),
     ({ id? := some (.num 9) },
      .obj [("id", .num 9), ("result", .obj [("outcome", .str "deny")])])]
    rfl
  rw [h.2.1]
  rfl

end AcpMultiplex
